import Mathlib

/-!
Shallow embedding of the `epic_manifest_parser` repository
(`src/manifest.rs`, `src/chunk.rs`) and verification of the spec's claims.

Bytes are modelled as `List Nat` (each entry a byte value `< 256`); a cursor
over a byte buffer is an explicit position of type `Nat`.  A Rust `Result`
error is `Fail.err`; a Rust panic is `Fail.panicked` with the panic message.
-/

set_option maxRecDepth 8000

namespace EpicManifest

/-- Error values carried inside Rust `Result::Err` (the crate erases them to
`Box<dyn Error>`; we keep the originating kind). -/
inductive RErr where
  | ioError
  | tryFromError
  | utf8Error
deriving DecidableEq

/-- A failure outcome of a Rust computation: a returned `Err`, or a panic. -/
inductive Fail where
  | err (e : RErr)
  | panicked (msg : String)
deriving DecidableEq

/-- Rust computations that may return `Err` or panic. -/
abbrev P (α : Type) := Except Fail α

/-- The bytes `d[p .. p+n)` when that range is inside the buffer. -/
def readBytes (d : List Nat) (p n : Nat) : Option (List Nat) :=
  if p + n ≤ d.length then some ((d.drop p).take n) else none

/-- Little-endian value of a byte list. -/
def leVal (bs : List Nat) : Nat := bs.foldr (fun b acc => b + 256 * acc) 0

/-- Big-endian value of a byte list. -/
def beVal (bs : List Nat) : Nat := bs.foldl (fun acc b => 256 * acc + b) 0

/-- Raw `n`-byte read as done by `bytes::Buf` getters, which panic when the
cursor has fewer than `n` bytes remaining. -/
def getBytesP (d : List Nat) (p n : Nat) : P (List Nat × Nat) :=
  match readBytes d p n with
  | some bs => .ok (bs, p + n)
  | none => .error (.panicked "advance out of bounds")

/-- `bytes::Buf::get_u8`. -/
def getU8 (d : List Nat) (p : Nat) : P (Nat × Nat) :=
  (getBytesP d p 1).map (fun r => (leVal r.1, r.2))

/-- `bytes::Buf::get_u32_le`. -/
def getU32le (d : List Nat) (p : Nat) : P (Nat × Nat) :=
  (getBytesP d p 4).map (fun r => (leVal r.1, r.2))

/-- `bytes::Buf::get_u64_le`. -/
def getU64le (d : List Nat) (p : Nat) : P (Nat × Nat) :=
  (getBytesP d p 8).map (fun r => (leVal r.1, r.2))

/-- Reinterpret an unsigned 32-bit value as an `i32`. -/
def toI32 (u : Nat) : Int := if u < 2 ^ 31 then (u : Int) else (u : Int) - 2 ^ 32

/-- `bytes::Buf::get_i32_le`. -/
def getI32le (d : List Nat) (p : Nat) : P (Int × Nat) :=
  (getBytesP d p 4).map (fun r => (toI32 (leVal r.1), r.2))

/-- `bytes::Buf::get_i32` (big-endian), used once for the feature level. -/
def getI32be (d : List Nat) (p : Nat) : P (Int × Nat) :=
  (getBytesP d p 4).map (fun r => (toI32 (beVal r.1), r.2))

/-- `std::io::Read::read_exact`, which returns `Err` when the buffer is short. -/
def readExact (d : List Nat) (p n : Nat) : P (List Nat × Nat) :=
  match readBytes d p n with
  | some bs => .ok (bs, p + n)
  | none => .error (.err .ioError)

/-- `usize::try_from` on a signed value, propagated with `?`. -/
def usizeOf (i : Int) : P Nat :=
  if 0 ≤ i then .ok i.toNat else .error (.err .tryFromError)

/-- `Seek::seek(SeekFrom::Current(off))`: errors when the resulting position
would be negative. -/
def seekCur (p : Nat) (off : Int) : P Nat :=
  if 0 ≤ (p : Int) + off then .ok ((p : Int) + off).toNat
  else .error (.err .ioError)

/-- Two's-complement wrap of an `i32` arithmetic result (release-build
overflow semantics). -/
def wrapI32 (i : Int) : Int := (i + 2 ^ 31) % 2 ^ 32 - 2 ^ 31

/-- Rust slice indexing `&d[a..b]`, which panics when the range is invalid. -/
def sliceIx (d : List Nat) (a b : Nat) : P (List Nat) :=
  if a ≤ b ∧ b ≤ d.length then .ok ((d.drop a).take (b - a))
  else .error (.panicked "slice index out of range")

/-- Whether a byte is a UTF-8 continuation byte. -/
def contByte (b : Nat) : Prop := 0x80 ≤ b ∧ b ≤ 0xBF

instance (b : Nat) : Decidable (contByte b) := by unfold contByte; infer_instance

/-- UTF-8 validation and decoding as performed by `String::from_utf8`. -/
def utf8DecodeList : List Nat → Option (List Char)
  | [] => some []
  | b :: rest =>
    if b ≤ 0x7F then
      (utf8DecodeList rest).map (fun cs => Char.ofNat b :: cs)
    else if b < 0xC2 then none
    else if b ≤ 0xDF then
      match rest with
      | c1 :: r =>
        if contByte c1 then
          (utf8DecodeList r).map (fun cs =>
            Char.ofNat ((b - 0xC0) * 0x40 + (c1 - 0x80)) :: cs)
        else none
      | [] => none
    else if b ≤ 0xEF then
      match rest with
      | c1 :: c2 :: r =>
        let lo1 : Nat := if b = 0xE0 then 0xA0 else 0x80
        let hi1 : Nat := if b = 0xED then 0x9F else 0xBF
        if lo1 ≤ c1 ∧ c1 ≤ hi1 ∧ contByte c2 then
          (utf8DecodeList r).map (fun cs =>
            Char.ofNat ((b - 0xE0) * 0x1000 + (c1 - 0x80) * 0x40 + (c2 - 0x80)) :: cs)
        else none
      | _ => none
    else if b ≤ 0xF4 then
      match rest with
      | c1 :: c2 :: c3 :: r =>
        let lo1 : Nat := if b = 0xF0 then 0x90 else 0x80
        let hi1 : Nat := if b = 0xF4 then 0x8F else 0xBF
        if lo1 ≤ c1 ∧ c1 ≤ hi1 ∧ contByte c2 ∧ contByte c3 then
          (utf8DecodeList r).map (fun cs =>
            Char.ofNat ((b - 0xF0) * 0x40000 + (c1 - 0x80) * 0x1000
              + (c2 - 0x80) * 0x40 + (c3 - 0x80)) :: cs)
        else none
      | _ => none
    else none

/-- `String::from_utf8`. -/
def utf8Decode (bs : List Nat) : Option String :=
  (utf8DecodeList bs).map (fun cs => String.mk cs)

/-- `CursorExt::read_fstring` (manifest.rs lines 41-67).  A zero length gives
the empty string; a positive length reads that many bytes and drops the
trailing NUL; a negative length reads `2*|length|` bytes and then panics
(`i32::MIN` panics immediately).  `-length * 2` is `i32` arithmetic and wraps
in release builds. -/
def read_fstring (d : List Nat) (p : Nat) : P (String × Nat) := do
  let (length, p) ← getI32le d p
  if length = 0 then
    return ("", p)
  else if length < 0 then
    if length = -(2 ^ 31 : Int) then
      .error (.panicked "Archive is corrupted.")
    else do
      let len := wrapI32 (-length * 2)
      let n ← usizeOf len
      let (_buffer, _p) ← readExact d p n
      .error (.panicked "Unicode FStrings are not supported yet.")
  else do
    let n ← usizeOf length
    let (buffer, p) ← readExact d p n
    let buffer := buffer.take (buffer.length - 1)
    match utf8Decode buffer with
    | some s => return (s, p)
    | none => .error (.err .utf8Error)

/-- `CursorExt::read_sized_tarray`: invoke the element reader `n` times. -/
def read_sized_tarray (f : List Nat → Nat → P (α × Nat)) (d : List Nat) :
    Nat → Nat → P (List α × Nat)
  | 0, p => .ok ([], p)
  | n + 1, p => do
    let (x, p) ← f d p
    let (xs, p) ← read_sized_tarray f d n p
    .ok (x :: xs, p)

/-- `CursorExt::read_tarray`: an `i32` count then that many elements. -/
def read_tarray (f : List Nat → Nat → P (α × Nat)) (d : List Nat) (p : Nat) :
    P (List α × Nat) := do
  let (length, p) ← getI32le d p
  let n ← usizeOf length
  read_sized_tarray f d n p

/-- `Result::unwrap()` inside an element closure: an `Err` becomes a panic. -/
def unwrapP (x : P α) : P α :=
  match x with
  | .error (.err _) => .error (.panicked "called Result::unwrap on an Err value")
  | y => y

/-- `FGuid` (manifest.rs lines 88-112): four little-endian `u32` lanes. -/
structure FGuid where
  a : Nat
  b : Nat
  c : Nat
  d : Nat
deriving DecidableEq

/-- `FGuid::new`. -/
def FGuid.read (dt : List Nat) (p : Nat) : P (FGuid × Nat) := do
  let (a, p) ← getU32le dt p
  let (b, p) ← getU32le dt p
  let (c, p) ← getU32le dt p
  let (d, p) ← getU32le dt p
  .ok (⟨a, b, c, d⟩, p)

/-- One uppercase hexadecimal digit. -/
def hexDigit (n : Nat) : Char :=
  if n < 10 then Char.ofNat (48 + n) else Char.ofNat (55 + n)

/-- Digits of `n` in uppercase hex, most significant first (empty for 0). -/
def hexReprAux : Nat → Nat → List Char
  | 0, _ => []
  | _ + 1, 0 => []
  | fuel + 1, n => hexReprAux fuel (n / 16) ++ [hexDigit (n % 16)]

/-- Rust `UpperHex` rendering of `n`: minimal digits, `"0"` for zero. -/
def hexRepr (n : Nat) : List Char :=
  if n = 0 then ['0'] else hexReprAux n n

/-- Left-pad a digit string with zeros to width `w`. -/
def padLeft (w : Nat) (cs : List Char) : List Char :=
  List.replicate (w - cs.length) '0' ++ cs

/-- Rust format `{:0wX}`: uppercase hex zero-padded to width `w`. -/
def toHexPad (w n : Nat) : String := String.mk (padLeft w (hexRepr n))

/-- Rust format `{:02}`: decimal, zero-padded to width 2. -/
def padDec2 (n : Nat) : String := String.mk (padLeft 2 (toString n).toList)

/-- `Display for FGuid`: format "{:08X}{:08X}{:08X}{:08X}" over the lanes. -/
def FGuid.toStr (g : FGuid) : String :=
  toHexPad 8 g.a ++ toHexPad 8 g.b ++ toHexPad 8 g.c ++ toHexPad 8 g.d

/-- `hex::encode_upper` over a byte slice: two uppercase digits per byte. -/
def hexEncodeUpper (bs : List Nat) : String :=
  String.mk ((bs.map (fun b => [hexDigit (b / 16), hexDigit (b % 16)])).flatten)

/-- Rust debug format "{:X?}" applied to a `&[u8]` slice: a bracketed,
comma-separated list of unpadded uppercase-hex byte values. -/
def rustDebugHexSlice (bs : List Nat) : String :=
  "[" ++ String.intercalate ", " (bs.map (fun b => String.mk (hexRepr b))) ++ "]"

/-- Rust format "{:016X?}" applied to a `u64` (the rolling-hash string). -/
def rustU64Hex16 (v : Nat) : String := toHexPad 16 v

/-- `FileChunk` (chunk.rs lines 12-21). -/
structure FileChunk where
  guid : FGuid
  size : Nat
  hash : String
  sha : String
  data_group : Nat
  file_name : String
  uri : String
deriving DecidableEq

/-- `FileChunk::new` (chunk.rs lines 23-36):
`file_name = format("{}_{}.chunk", hash, guid)` and
`uri = format("{}{:02}/{}", base_url, data_group, file_name)`. -/
def FileChunk.new (guid : FGuid) (size : Nat) (hash sha : String)
    (data_group : Nat) (base_url : String) : FileChunk :=
  let file_name := hash ++ "_" ++ guid.toStr ++ ".chunk"
  { guid, size, hash, sha, data_group, file_name,
    uri := base_url ++ padDec2 data_group ++ "/" ++ file_name }

/-- `FileChunkPart` (chunk.rs lines 38-43): wire-format signed offset/size. -/
structure FileChunkPart where
  guid : FGuid
  offset : Int
  size : Int
deriving DecidableEq

/-- `FileChunkPart::new` (chunk.rs lines 45-59): skip 4 bytes (record size),
then guid, offset, size. -/
def FileChunkPart.read (d : List Nat) (p : Nat) : P (FileChunkPart × Nat) := do
  let p := p + 4
  let (guid, p) ← FGuid.read d p
  let (offset, p) ← getI32le d p
  let (size, p) ← getI32le d p
  .ok (⟨guid, offset, size⟩, p)

/-- `ManifestContext` (chunk.rs lines 61-76).  The chunk `HashMap` is an
association list where later inserts are prepended, so `List.lookup` sees the
last-written binding; the `HttpService` collaborator is passed separately as
an oracle to the download functions. -/
structure ManifestContext where
  chunks : List (FGuid × FileChunk)
  cache_dir : Option String
deriving DecidableEq

/-- `ChunkDownload` (chunk.rs lines 78-84). -/
structure ChunkDownload where
  uri : String
  offset : Nat
  size : Nat
  file_name : String
  position : Nat
deriving DecidableEq

/-- `ChunkDownload::new` (chunk.rs lines 86-97).  The chunk lookup and the
`usize::try_from` conversions are `unwrap`ped, so a missing guid or a
negative offset/size panics. -/
def ChunkDownload.new (context : ManifestContext) (part : FileChunkPart)
    (position : Nat) : P ChunkDownload :=
  match List.lookup part.guid context.chunks with
  | none => .error (.panicked "called Option::unwrap on a None value")
  | some chunk =>
    if 0 ≤ part.offset then
      if 0 ≤ part.size then
        .ok { uri := chunk.uri, file_name := chunk.file_name,
              offset := part.offset.toNat, size := part.size.toNat, position }
      else .error (.panicked "called Result::unwrap on an Err value")
    else .error (.panicked "called Result::unwrap on an Err value")

/-- `FileManifest` (chunk.rs lines 101-109). -/
structure FileManifest where
  name : String
  hash : String
  install_tags : List String
  chunk_parts : List FileChunkPart
  context : ManifestContext
  size : Nat
deriving DecidableEq

/-- `FileManifest::new` (chunk.rs lines 113-127): `size` accumulates
`usize::try_from(part.size).unwrap_or_default()`, so a negative wire size
contributes 0 (which is exactly `Int.toNat`). -/
def FileManifest.new (name hash : String) (install_tags : List String)
    (chunk_parts : List FileChunkPart) (context : ManifestContext) : FileManifest :=
  { name, hash, install_tags, chunk_parts, context,
    size := (chunk_parts.map (fun cp => cp.size.toNat)).sum }

/-- `FileManifestBuilder` (chunk.rs lines 224-262). -/
structure FileManifestBuilder where
  name : String
  hash : Option String
  install_tags : Option (List String)
  chunk_parts : Option (List FileChunkPart)
deriving DecidableEq

def FileManifestBuilder.new (name : String) : FileManifestBuilder :=
  ⟨name, none, none, none⟩

def FileManifestBuilder.set_hash (b : FileManifestBuilder) (h : String) :
    FileManifestBuilder := { b with hash := some h }

def FileManifestBuilder.set_install_tags (b : FileManifestBuilder)
    (t : List String) : FileManifestBuilder := { b with install_tags := some t }

def FileManifestBuilder.set_chunk_parts (b : FileManifestBuilder)
    (ps : List FileChunkPart) : FileManifestBuilder := { b with chunk_parts := some ps }

/-- `FileManifestBuilder::build` (chunk.rs lines 264-271). -/
def FileManifestBuilder.build (b : FileManifestBuilder)
    (context : ManifestContext) : FileManifest :=
  FileManifest.new b.name (b.hash.getD "") (b.install_tags.getD [])
    (b.chunk_parts.getD []) context

/-- Overwrite `data.length` bytes of `buf` starting at `pos`
(`block.copy_from_slice(data)` on `&mut result[pos..pos+len]`). -/
def writeAt (buf : List Nat) (pos : Nat) (data : List Nat) : List Nat :=
  buf.take pos ++ data ++ buf.drop (pos + data.length)

/-- The download-list loop of `FileManifest::save` (chunk.rs lines 130-137):
each part's write position is the running sum of the previous sizes. -/
def mkDownloads (context : ManifestContext) :
    List FileChunkPart → Nat → P (List ChunkDownload)
  | [], _ => .ok []
  | part :: rest, position => do
    let dl ← ChunkDownload.new context part position
    let dls ← mkDownloads context rest (position + dl.size)
    .ok (dl :: dls)

/-- One iteration of the receive loop of `FileManifest::save` (chunk.rs lines
152-160): slice `data[offset..offset+size]` out of the decoded chunk and copy
it to `result[position..position+size]`; both slicings panic out of range. -/
def recvWrite (buf : List Nat) (dl : ChunkDownload) (data : List Nat) :
    P (List Nat) := do
  let piece ← sliceIx data dl.offset (dl.offset + dl.size)
  if dl.position + dl.size ≤ buf.length then
    .ok (writeAt buf dl.position piece)
  else .error (.panicked "slice index out of range")

/-- `FileManifest::save` (chunk.rs lines 129-163).  `fetchDecode` abstracts
the spawned `download_chunk` task for one download; a task that fails sends
nothing on the channel, so only successful results reach the receive loop.
The receive loop is modelled in dispatch order; the written ranges are
disjoint, so arrival order cannot change the result. -/
def FileManifest.save (fm : FileManifest)
    (fetchDecode : ChunkDownload → P (List Nat)) : P (List Nat) := do
  let downloads ← mkDownloads fm.context fm.chunk_parts 0
  let total_size := (downloads.map (fun dl => dl.size)).sum
  let received := downloads.filterMap (fun dl =>
    match fetchDecode dl with
    | .ok data => some (dl, data)
    | .error _ => none)
  received.foldlM (fun buf x => recvWrite buf x.1 x.2) (List.replicate total_size 0)

/-- The filesystem collaborator used by the chunk cache. -/
structure FsOracle where
  fexists : String → Bool
  fread : String → P (List Nat)
  fwrite : String → List Nat → P Unit

/-- `PathBuf::push` composition used for cache paths. -/
def pathJoin (a b : String) : String := a ++ "/" ++ b

/-- `FileManifest::download_chunk_result` (chunk.rs lines 169-220).  Returns
the list of `(download, bytes)` messages sent on the channel (the channel
send itself always succeeds while the receiver lives).  On a cache hit the
cached bytes are sent verbatim; otherwise the chunk is fetched, its header
parsed (`header_size` at offset 8, compression flag at offset 40), the body
decompressed when flagged, written back to the cache when one is configured
(`std::fs::write(path, ..)?` propagates a write failure), and sent. -/
def download_chunk_result (fs : FsOracle) (http : String → P (List Nat))
    (inflate : List Nat → Option (List Nat)) (context : ManifestContext)
    (download : ChunkDownload) : P (List (ChunkDownload × List Nat)) := do
  let cached : Option (P (List (ChunkDownload × List Nat))) :=
    match context.cache_dir with
    | some cache_dir =>
      if fs.fexists (pathJoin cache_dir download.file_name) then
        some (do
          let bytes ← fs.fread (pathJoin cache_dir download.file_name)
          .ok [(download, bytes)])
      else none
    | none => none
  match cached with
  | some r => r
  | none => do
    let data ← http download.uri
    let size := data.length
    let (header_size, _) ← getI32le data 8
    let (flagByte, _) ← getU8 data 40
    let hsN ← usizeOf header_size
    let pos_size := hsN
    -- `size - pos_size` is usize arithmetic: it panics on underflow
    if size < pos_size then .error (.panicked "attempt to subtract with overflow")
    else do
      let chunk_data_size := size - pos_size
      let compressed_data ← sliceIx data pos_size (pos_size + chunk_data_size)
      let result ←
        (if flagByte = 1 then
          match inflate compressed_data with
          | some out => (.ok out : P (List Nat))
          | none => .error (.panicked "called Result::unwrap on an Err value")
        else .ok compressed_data)
      match context.cache_dir with
      | some cache_dir => do
        fs.fwrite (pathJoin cache_dir download.file_name) result
        .ok [(download, result)]
      | none => .ok [(download, result)]

/-- `FileManifest::download_chunk` (chunk.rs lines 165-167): the spawned task
`unwrap`s, turning any returned error into a task panic. -/
def download_chunk (fs : FsOracle) (http : String → P (List Nat))
    (inflate : List Nat → Option (List Nat)) (context : ManifestContext)
    (download : ChunkDownload) : P (List (ChunkDownload × List Nat)) :=
  unwrapP (download_chunk_result fs http inflate context download)

/-- `ManifestOptions` (manifest.rs lines 202-215). -/
structure ManifestOptions where
  cache_directory : Option String
  chunk_base_uri : String
deriving DecidableEq

/-- `Manifest` (manifest.rs lines 217-236); the four chunk tables are
`HashMap`s modelled as prepend association lists. -/
structure Manifest where
  app_id : Int
  app_name : String
  build_version : String
  launch_exe : String
  launch_command : String
  prereq_ids : List String
  prereq_name : String
  prereq_path : String
  prereq_args : String
  build_id : String
  chunk_hashes : List (FGuid × String)
  chunk_shas : List (FGuid × String)
  data_groups : List (FGuid × Nat)
  chunk_filesizes : List (FGuid × Nat)
  file_manifests : List FileManifest
  custom_fields : List (String × String)
  context : ManifestContext
deriving DecidableEq

/-- `HashMap::insert` for each pair in order, over a prepend association
list: a later insert shadows an earlier one under `List.lookup`. -/
def insertAll (pairs : List (κ × ν)) (m : List (κ × ν)) : List (κ × ν) :=
  pairs.foldl (fun acc kv => kv :: acc) m

/-- The SHA column loops (manifest.rs lines 331-337 and 383-389): the `i`-th
20-byte digest is sliced out of the buffer at `base + i*20` without moving
the cursor; the slicing panics when it runs past the end. -/
def readShaColumn (d : List Nat) (base : Nat) : Nat → Nat → P (List (List Nat))
  | 0, _ => .ok []
  | n + 1, i => do
    let bytes ← sliceIx d (base + i * 20) (base + i * 20 + 20)
    let rest ← readShaColumn d base n (i + 1)
    .ok (bytes :: rest)

/-- The data-group loop (manifest.rs lines 343-347): direct `Vec` indexing at
`base + i`, which panics out of bounds. -/
def readByteColumn (d : List Nat) (base : Nat) : Nat → Nat → P (List Nat)
  | 0, _ => .ok []
  | n + 1, i =>
    match readBytes d (base + i) 1 with
    | some [b] => do
      let rest ← readByteColumn d base n (i + 1)
      .ok (b :: rest)
    | _ => .error (.panicked "index out of bounds")

/-- The symlink-target skip loop (manifest.rs lines 377-380): an `i32` length
then a relative seek over that many bytes. -/
def skipSymlinks (d : List Nat) : Nat → Nat → P Nat
  | 0, p => .ok p
  | n + 1, p => do
    let (len, p) ← getI32le d p
    let p ← seekCur p len
    skipSymlinks d n p

/-- The custom-field pairing loop (manifest.rs lines 418-421): `keys[i]` and
`values[i]` are `Vec` indexings that panic when `count` exceeds the actual
lengths read from the two arrays' own prefixes. -/
def indexPairs (count : Nat) (keys values : List String) :
    P (List (String × String)) :=
  (List.range count).foldlM (fun acc i =>
    match keys[i]?, values[i]? with
    | some k, some v => .ok ((k, v) :: acc)
    | _, _ => .error (.panicked "index out of bounds")) []

/-- The chunk-join loop (manifest.rs lines 424-431): for every guid in the
file-size table, the hash, sha and data-group tables are `unwrap`-looked-up
and a `FileChunk` is built.  `HashMap` iteration order is arbitrary in Rust;
the resulting map is order-independent under `List.lookup` because every
entry for one guid carries the same chunk value. -/
def buildChunks (filesizes : List (FGuid × Nat))
    (hashes shas : List (FGuid × String)) (groups : List (FGuid × Nat))
    (base : String) : P (List (FGuid × FileChunk)) :=
  filesizes.foldlM (fun acc gs =>
    match List.lookup gs.1 hashes, List.lookup gs.1 shas,
        List.lookup gs.1 groups with
    | some h, some s, some dg =>
      .ok ((gs.1, FileChunk.new gs.1 gs.2 h s dg base) :: acc)
    | _, _, _ => .error (.panicked "called Option::unwrap on a None value")) []

/-- The values read by section 1 of the inner payload, together with the
section's declared `data_size` (used by the seek that follows it). -/
structure BuildMeta where
  data_size : Int
  app_id : Int
  app_name : String
  build_version : String
  launch_exe : String
  launch_command : String
  prereq_ids : List String
  prereq_name : String
  prereq_path : String
  prereq_args : String
  build_id : String
deriving DecidableEq

/-- Section 1: build meta (manifest.rs lines 283-303), read from offset 0 of
the inner payload.  A `u8` version is always `≥ EMANIFEST_META_VERSION_ORIGINAL`,
so the version-0 body is always read; `build_id` is read only for
version `≥ 1`. -/
def readBuildMeta (data : List Nat) : P BuildMeta := do
  let (data_size1, p) ← getI32le data 0
  let (data_version1, p) ← getU8 data p
  let (_feature_level, p) ← getI32be data p
  let (_is_file_data, p) ← getU8 data p
  let (app_id, p) ← getI32le data p
  let (app_name, p) ← read_fstring data p
  let (build_version, p) ← read_fstring data p
  let (launch_exe, p) ← read_fstring data p
  let (launch_command, p) ← read_fstring data p
  let (prereq_ids, p) ← read_tarray (fun d q => unwrapP (read_fstring d q)) data p
  let (prereq_name, p) ← read_fstring data p
  let (prereq_path, p) ← read_fstring data p
  let (prereq_args, p) ← read_fstring data p
  let (build_id, _pend1) ←
    (if 1 ≤ data_version1 then read_fstring data p else .ok ("", p))
  .ok { data_size := data_size1, app_id, app_name, build_version, launch_exe,
        launch_command, prereq_ids, prereq_name, prereq_path, prereq_args,
        build_id }

/-- The four parallel chunk tables of section 2, with its declared size. -/
structure ChunkTables where
  data_size : Int
  chunk_hashes : List (FGuid × String)
  chunk_shas : List (FGuid × String)
  data_groups : List (FGuid × Nat)
  chunk_filesizes : List (FGuid × Nat)
deriving DecidableEq

/-- Section 2: chunk table (manifest.rs lines 311-359), read from
`start_pos`: a count, the guid column, the `u64` rolling-hash column
(stringified "{:016X?}"), the in-place-sliced SHA column
(`hex::encode_upper`), the directly indexed data-group column, a skipped
4-bytes-per-chunk column, and the `u64` file-size column. -/
def readChunkTables (data : List Nat) (start_pos : Nat) : P ChunkTables := do
  let (data_size2, p) ← getI32le data start_pos
  let (_data_version2, p) ← getU8 data p
  let (count2, p) ← getI32le data p
  let count_size2 ← usizeOf count2
  let (guids, p) ← read_sized_tarray FGuid.read data count_size2 p
  let (hash_values, p) ← read_sized_tarray getU64le data count_size2 p
  let chunk_hashes := insertAll (guids.zip (hash_values.map rustU64Hex16)) []
  let shaCol ← readShaColumn data p count_size2 0
  let chunk_shas := insertAll (guids.zip (shaCol.map hexEncodeUpper)) []
  let p ← seekCur p (wrapI32 (count2 * 20))
  let groupCol ← readByteColumn data p count_size2 0
  let data_groups := insertAll (guids.zip groupCol) []
  let p ← seekCur p count2
  let p ← seekCur p (wrapI32 (count2 * 4))
  let (file_sizes, _pend2) ← read_sized_tarray getU64le data count_size2 p
  let chunk_filesizes := insertAll (guids.zip file_sizes) []
  .ok { data_size := data_size2, chunk_hashes, chunk_shas, data_groups,
        chunk_filesizes }

/-- The file-manifest builders of section 3, with its declared size. -/
structure FileTable where
  data_size : Int
  builders : List FileManifestBuilder
deriving DecidableEq

/-- Section 3: file table (manifest.rs lines 364-403), read from
`start_pos`: a count, the file-name column, the skipped symlink column, the
in-place-sliced SHA column (stored via "{:X?}"), a skipped per-file byte,
the install-tag arrays and the chunk-part arrays, all accumulated into
`FileManifestBuilder`s. -/
def readFileTable (data : List Nat) (start_pos : Nat) : P FileTable := do
  let (data_size3, p) ← getI32le data start_pos
  let (_data_version3, p) ← getU8 data p
  let (count3, p) ← getI32le data p
  let count_size3 ← usizeOf count3
  let (file_names, p) ← read_sized_tarray read_fstring data count_size3 p
  let p ← skipSymlinks data count_size3 p
  let shaCol3 ← readShaColumn data p count_size3 0
  let file_hashes := shaCol3.map rustDebugHexSlice
  let p ← seekCur p (wrapI32 (count3 * 20))
  let p ← seekCur p count3
  let (tag_lists, p) ←
    read_sized_tarray (read_tarray (fun d q => unwrapP (read_fstring d q)))
      data count_size3 p
  let (part_lists, _pend3) ←
    read_sized_tarray (read_tarray FileChunkPart.read) data count_size3 p
  let builders := file_names.map FileManifestBuilder.new
  let builders := List.zipWith FileManifestBuilder.set_hash builders file_hashes
  let builders := List.zipWith FileManifestBuilder.set_install_tags builders tag_lists
  let builders := List.zipWith FileManifestBuilder.set_chunk_parts builders part_lists
  .ok { data_size := data_size3, builders }

/-- Section 4: custom fields (manifest.rs lines 408-422), read from
`start_pos`; the keys and values are read only when the version is `> 0`. -/
def readCustomFields (data : List Nat) (start_pos : Nat) :
    P (List (String × String)) := do
  let (_data_size4, p) ← getI32le data start_pos
  let (data_version4, p) ← getU8 data p
  if 0 < data_version4 then do
    let (count4, q) ← getI32le data p
    let _capacity ← usizeOf count4
    let (keys, q) ← read_tarray (fun d r => unwrapP (read_fstring d r)) data q
    let (values, _q) ← read_tarray (fun d r => unwrapP (read_fstring d r)) data q
    indexPairs count4.toNat keys values
  else .ok ([] : List (String × String))

/-- The inner-payload decoder: the four-section body of `Manifest::new`
(manifest.rs lines 272-461).  Before each of sections 2, 3 and 4 the cursor
seeks to the previous section's `start_pos + data_size` as declared at that
section's head (lines 310, 363, 407), regardless of how many bytes its body
consumed. -/
def parseInner (options : ManifestOptions) (data : List Nat) : P Manifest := do
  let meta ← readBuildMeta data
  let ds1 ← usizeOf meta.data_size
  let tables ← readChunkTables data (0 + ds1)
  let ds2 ← usizeOf tables.data_size
  let files ← readFileTable data (0 + ds1 + ds2)
  let ds3 ← usizeOf files.data_size
  let custom_fields ← readCustomFields data (0 + ds1 + ds2 + ds3)
  -- join the chunk columns (lines 424-431) and build the files (437-441)
  let chunks ← buildChunks tables.chunk_filesizes tables.chunk_hashes
    tables.chunk_shas tables.data_groups options.chunk_base_uri
  let context : ManifestContext := ⟨chunks, options.cache_directory⟩
  let file_manifests := files.builders.map (fun b => b.build context)
  .ok { app_id := meta.app_id, app_name := meta.app_name,
        build_version := meta.build_version, launch_exe := meta.launch_exe,
        launch_command := meta.launch_command, prereq_ids := meta.prereq_ids,
        prereq_name := meta.prereq_name, prereq_path := meta.prereq_path,
        prereq_args := meta.prereq_args, build_id := meta.build_id,
        chunk_hashes := tables.chunk_hashes, chunk_shas := tables.chunk_shas,
        data_groups := tables.data_groups,
        chunk_filesizes := tables.chunk_filesizes,
        file_manifests, custom_fields, context }

/-- The outer-container stage of `Manifest::new` (manifest.rs lines 240-270):
magic check, header fields, storage-flag dispatch, payload extraction.  The
compressed branch slices `data[pos .. pos + compressed_size]`; the
uncompressed fallthrough branch slices `data[pos .. compressed_size]`. -/
def outerPayload (inflate : List Nat → Option (List Nat)) (data : List Nat) :
    P (List Nat) := do
  let (magic, p) ← getU32le data 0
  if magic = 0x44BEC00C then do
    let (header_size, p) ← getI32le data p
    let (_data_size_uncompressed, p) ← getI32le data p
    let (data_size_compressed, p) ← getI32le data p
    let p := p + 20
    let (storage_flags, p) ← getU8 data p
    let (_version, _p) ← getI32le data p
    let hsN ← usizeOf header_size
    let pos := hsN
    if storage_flags = 1 then do
      let csN ← usizeOf data_size_compressed
      let compressed ← sliceIx data pos (pos + csN)
      match inflate compressed with
      | some out => .ok out
      | none => .error (.panicked "called Result::unwrap on an Err value")
    else if storage_flags = 2 then
      .error (.panicked "Encrypted manifests are not supported.")
    else do
      let csN ← usizeOf data_size_compressed
      sliceIx data pos csN
  else .error (.panicked "JSON manifests are not supported.")

/-- `Manifest::new` (manifest.rs lines 240-462): unwrap the outer container,
then decode the four inner sections.  `inflate` is the zlib collaborator
(`miniz_oxide::inflate::decompress_to_vec_zlib`). -/
def Manifest.new (inflate : List Nat → Option (List Nat)) (data : List Nat)
    (options : ManifestOptions) : P Manifest := do
  let payload ← outerPayload inflate data
  parseInner options payload

/-! Concrete inputs used by the witness and counterexample theorems. -/

/-- Little-endian 4-byte encoding of a value below `2^31`. -/
def i32b (n : Nat) : List Nat :=
  [n % 256, n / 256 % 256, n / 65536 % 256, n / 16777216 % 256]

/-- A zlib collaborator that is never consulted (uncompressed inputs). -/
def noInflate : List Nat → Option (List Nat) := fun _ => none

/-- Options with no cache directory. -/
def optsNone : ManifestOptions := ⟨none, "http://base/"⟩

/-- Outer frame of the concrete manifest `cBytes`: magic, `header_size = 41`,
uncompressed storage, `compressed_size = 177` (the full file length, which is
what the uncompressed branch actually needs, since it slices up to that
index). -/
def cOuter : List Nat :=
  [0x0C, 0xC0, 0xBE, 0x44] ++ i32b 41 ++ i32b 136 ++ i32b 177 ++
  List.replicate 20 0 ++ [0] ++ i32b 0

/-- Section 1 of `cBytes`: version 0, all strings empty, `data_size = 46`. -/
def cS1 : List Nat :=
  i32b 46 ++ [0] ++ i32b 0 ++ [0] ++ i32b 0 ++
  i32b 0 ++ i32b 0 ++ i32b 0 ++ i32b 0 ++
  i32b 0 ++
  i32b 0 ++ i32b 0 ++ i32b 0

/-- Section 2 of `cBytes`: an empty chunk table, `data_size = 9`. -/
def cS2 : List Nat := i32b 9 ++ [0] ++ i32b 0

/-- Section 3 of `cBytes`: one file named "a" whose single chunk part
references guid `(1,2,3,4)` with offset 0 and size 5; `data_size = 76`. -/
def cS3 : List Nat :=
  i32b 76 ++ [0] ++ i32b 1 ++
  (i32b 2 ++ [97, 0]) ++
  i32b 0 ++
  List.replicate 20 0 ++
  [0] ++
  i32b 0 ++
  i32b 1 ++
  (i32b 0 ++ i32b 1 ++ i32b 2 ++ i32b 3 ++ i32b 4 ++ i32b 0 ++ i32b 5)

/-- Section 4 of `cBytes`: version 0, so no custom fields are read. -/
def cS4 : List Nat := i32b 5 ++ [0]

/-- A complete 177-byte binary manifest whose one file references a chunk
guid that is absent from the (empty) chunk table. -/
def cBytes : List Nat := cOuter ++ cS1 ++ cS2 ++ cS3 ++ cS4

/-- The decoded file of `cBytes`: one chunk part whose guid `(1,2,3,4)` is
absent from its context's (empty) chunk table. -/
def fm0 : FileManifest :=
  { name := "a", hash := rustDebugHexSlice (List.replicate 20 0),
    install_tags := [], chunk_parts := [⟨⟨1, 2, 3, 4⟩, 0, 5⟩],
    context := ⟨[], none⟩, size := 5 }

/-- The manifest value that decoding `cBytes` produces. -/
def M0 : Manifest :=
  { app_id := 0, app_name := "", build_version := "", launch_exe := "",
    launch_command := "", prereq_ids := [], prereq_name := "",
    prereq_path := "", prereq_args := "", build_id := "",
    chunk_hashes := [], chunk_shas := [], data_groups := [],
    chunk_filesizes := [],
    file_manifests := [fm0],
    custom_fields := [], context := ⟨[], none⟩ }

/-- Outer frame for the C1 failing input: `header_size = 41`,
`compressed_size = 51`, storage flag `0x00`, 92 bytes total; the payload
region `[41, 92)` holds the bytes `1..51`. -/
def c1Bytes : List Nat :=
  [0x0C, 0xC0, 0xBE, 0x44] ++ i32b 41 ++ i32b 51 ++ i32b 51 ++
  List.replicate 20 0 ++ [0] ++ i32b 0 ++ (List.range 51).map (· + 1)

/-- A well-formed uncompressed CDN chunk file: `header_size = 42` at offset
8, compression flag 0 at offset 40, body `[104, 105]` at offset 42. -/
def c4Chunk : List Nat :=
  List.replicate 8 0 ++ i32b 42 ++ List.replicate 28 7 ++ [0, 9] ++ [104, 105]

/-- A filesystem whose cache probe misses and whose write always fails. -/
def c4fsBad : FsOracle :=
  ⟨fun _ => false, fun _ => .error (.err .ioError), fun _ _ => .error (.err .ioError)⟩

/-- A filesystem whose cache probe misses and whose write succeeds. -/
def c4fsGood : FsOracle :=
  ⟨fun _ => false, fun _ => .error (.err .ioError), fun _ _ => .ok ()⟩

/-- An HTTP collaborator serving `c4Chunk` at uri "u". -/
def c4http : String → P (List Nat) :=
  fun u => if u = "u" then .ok c4Chunk else .error (.err .ioError)

/-- A context with an empty chunk table and a configured cache directory. -/
def c4ctx : ManifestContext := ⟨[], some "cache"⟩

/-- The download of 2 bytes at offset 0 of that chunk. -/
def c4dl : ChunkDownload := ⟨"u", 0, 2, "f.chunk", 0⟩

/-- A chunk part is well-formed for assembly when its guid resolves in the
chunk table, its wire offset and size are non-negative, and the requested
range lies inside the decoded chunk body delivered for the chunk's uri. -/
def GoodPart (ctx : ManifestContext) (bodyOf : String → List Nat)
    (p : FileChunkPart) : Prop :=
  0 ≤ p.offset ∧ 0 ≤ p.size ∧
  ∃ ch, List.lookup p.guid ctx.chunks = some ch ∧
    p.offset.toNat + p.size.toNat ≤ (bodyOf ch.uri).length

/-- The bytes `[offset, offset+size)` of the decoded body of the chunk a
part references (empty for an unresolvable guid). -/
def partSlice (ctx : ManifestContext) (bodyOf : String → List Nat)
    (p : FileChunkPart) : List Nat :=
  match List.lookup p.guid ctx.chunks with
  | some ch => ((bodyOf ch.uri).drop p.offset.toNat).take p.size.toNat
  | none => []

/-- The download `ChunkDownload::new` produces for a well-formed part. -/
def dlOf (ctx : ManifestContext) (p : FileChunkPart) (position : Nat) :
    ChunkDownload :=
  match List.lookup p.guid ctx.chunks with
  | some ch => ⟨ch.uri, p.offset.toNat, p.size.toNat, ch.file_name, position⟩
  | none => ⟨"", 0, 0, "", position⟩

/-- The download list `save` builds: write positions are running size sums. -/
def dlsOf (ctx : ManifestContext) :
    List FileChunkPart → Nat → List ChunkDownload
  | [], _ => []
  | p :: ps, pos => dlOf ctx p pos :: dlsOf ctx ps (pos + p.size.toNat)

/-- Guids of the two chunks in the multi-part witness scenario. -/
def g1W : FGuid := ⟨1, 1, 1, 1⟩

def g2W : FGuid := ⟨2, 2, 2, 2⟩

/-- The two chunks of the multi-part witness scenario. -/
def ch1W : FileChunk := FileChunk.new g1W 9 "H1" "S1" 0 "b/"

def ch2W : FileChunk := FileChunk.new g2W 2 "H2" "S2" 0 "b/"

/-- Context holding both witness chunks. -/
def ctxW : ManifestContext := ⟨[(g1W, ch1W), (g2W, ch2W)], none⟩

/-- The spec's multi-part file: parts `(G1, 4, 3)` then `(G2, 0, 2)`. -/
def fmW : FileManifest :=
  FileManifest.new "f" "" [] [⟨g1W, 4, 3⟩, ⟨g2W, 0, 2⟩] ctxW

/-- Decoded chunk bodies "xxxxABCdd" for G1 and "YZ" for G2, by uri. -/
def bodyOfW : String → List Nat := fun u =>
  if u = ch1W.uri then [120, 120, 120, 120, 65, 66, 67, 100, 100]
  else if u = ch2W.uri then [89, 90]
  else []

/-- Section 1 core for the section-skip scenario: the declared size 51
exceeds the 46 bytes the decoder reads by 5. -/
def s1pad : List Nat :=
  i32b 51 ++ [0] ++ i32b 0 ++ [0] ++ i32b 0 ++
  i32b 0 ++ i32b 0 ++ i32b 0 ++ i32b 0 ++
  i32b 0 ++
  i32b 0 ++ i32b 0 ++ i32b 0

/-- Section 2 core for the skip scenario: declared size 12 = 9 read + 3 junk. -/
def s2pad : List Nat := i32b 12 ++ [0] ++ i32b 0

/-- Section 3 core for the skip scenario: declared size 16 = 9 read + 7 junk. -/
def s3pad : List Nat := i32b 16 ++ [0] ++ i32b 0

/-- Section 4 core for the skip scenario: version 0, no custom fields. -/
def s4pad : List Nat := i32b 5 ++ [0]

/-- The manifest every pad-variant of the skip scenario decodes to. -/
def M7 : Manifest :=
  { app_id := 0, app_name := "", build_version := "", launch_exe := "",
    launch_command := "", prereq_ids := [], prereq_name := "",
    prereq_path := "", prereq_args := "", build_id := "",
    chunk_hashes := [], chunk_shas := [], data_groups := [],
    chunk_filesizes := [], file_manifests := [],
    custom_fields := [], context := ⟨[], none⟩ }

deriving instance DecidableEq for Except

/-! Claim theorems. -/

/-- Claim C9: the spec requires that a negative (UTF-16) fstring length is
either decoded or reported as a typed error, and that the reader does not
panic.  The source reads the `2*|length|` bytes and then panics
unconditionally ("Unicode FStrings are not supported yet."), so the code
contradicts the required behaviour: at length prefix `-1` with its two
payload bytes present, the reader panics instead of returning. -/
theorem utf16_fstring_panics :
    read_fstring [255, 255, 255, 255, 65, 0] 0
      = .error (.panicked "Unicode FStrings are not supported yet.") := by decide

/-- Claim C1: the spec says an uncompressed (flag `0x00`) manifest payload is
the `compressed_size` bytes starting at `header_size`.  The code instead
slices `data[header_size .. compressed_size]`, using the field as an end
index.  On `c1Bytes` (header_size 41, compressed_size 51, 92 bytes total)
the decoder returns the 10 bytes `data[41..51]` rather than the 51 bytes
`data[41..92]`. -/
theorem uncompressed_payload_slice_bug :
    getI32le c1Bytes 4 = .ok (41, 8)
    ∧ getI32le c1Bytes 12 = .ok (51, 16)
    ∧ getU8 c1Bytes 36 = .ok (0, 37)
    ∧ outerPayload noInflate c1Bytes = .ok ((c1Bytes.drop 41).take 10)
    ∧ ((c1Bytes.drop 41).take 10).length = 10
    ∧ (c1Bytes.drop 41).length = 51 := by decide

/-- Claim C4: the spec requires that when fetching and decoding succeed but
persisting the decoded body to the cache fails, the chunk task still
delivers the decoded body.  The source writes the cache with
`std::fs::write(path, &_result)?`, so a write failure propagates before the
`sender.send` and nothing is delivered: with a failing-write filesystem the
call returns `Err` and sends no message, while the identical call with a
succeeding write delivers the decoded body `[104, 105]`. -/
theorem cache_write_failure_aborts_chunk_task :
    download_chunk_result c4fsBad c4http noInflate c4ctx c4dl
      = .error (.err .ioError)
    ∧ download_chunk_result c4fsGood c4http noInflate c4ctx c4dl
      = .ok [(c4dl, [104, 105])] := by decide

/-- Claim C3 is refuted: `cBytes` is a manifest whose single file references
chunk guid `(1,2,3,4)` while the chunk table is empty, yet `Manifest::new`
succeeds and produces a `Manifest` value (no `CorruptManifest` failure
happens during decode). -/
theorem decode_accepts_missing_chunk_guid :
    Manifest.new noInflate cBytes optsNone = .ok M0
    ∧ (M0.file_manifests.map fun f => f.chunk_parts.map (fun p => p.guid))
      = [[⟨1, 2, 3, 4⟩]]
    ∧ List.lookup (⟨1, 2, 3, 4⟩ : FGuid) M0.context.chunks = none := by decide

/-- Claim C5 is refuted for the file table: decoding `cBytes` produces a
per-file content-hash string of length 60 starting with a bracket (the Rust
`{:X?}` debug rendering of the 20-byte digest), not a 40-character
uppercase-hex string. -/
theorem file_hash_string_not_hex40 :
    (Manifest.new noInflate cBytes optsNone).map
        (fun m => m.file_manifests.map (fun f => f.hash.length)) = .ok [60]
    ∧ (Manifest.new noInflate cBytes optsNone).map
        (fun m => m.file_manifests.map (fun f => f.hash.toList.head?))
      = .ok [some '['] := by decide

/-- Claim C10: `FileManifest::new` accumulates the public `size` as the sum
of `usize::try_from(part.size).unwrap_or_default()`, so each non-negative
part size contributes itself and each negative part size contributes 0; on
the concrete parts `[-5, 3]` the stored size is 3 while the signed sum of
wire sizes is -2. -/
theorem filemanifest_size_clamps_negative_parts :
    (∀ (name hash : String) (tags : List String) (parts : List FileChunkPart)
        (ctx : ManifestContext),
      (FileManifest.new name hash tags parts ctx).size
        = (parts.map (fun p => if 0 ≤ p.size then p.size.toNat else 0)).sum)
    ∧ (FileManifest.new "f" "" []
        [⟨⟨0, 0, 0, 0⟩, 0, -5⟩, ⟨⟨0, 0, 0, 0⟩, 0, 3⟩] ⟨[], none⟩).size = 3
    ∧ (([⟨⟨0, 0, 0, 0⟩, 0, -5⟩, ⟨⟨0, 0, 0, 0⟩, 0, 3⟩] : List FileChunkPart).map
        (fun p => p.size)).sum = -2 := by
  refine ⟨fun name hash tags parts ctx => ?_, by decide, by decide⟩
  show (parts.map (fun cp => cp.size.toNat)).sum = _
  refine congrArg List.sum (List.map_congr_left fun p _ => ?_)
  by_cases h : 0 ≤ p.size
  · simp [h]
  · simp [h, Int.toNat_of_nonpos (le_of_lt (not_le.mp h))]

/-- Claim C6: `FileChunk::new` composes
`file_name = hash ++ "_" ++ guid ++ ".chunk"` and
`uri = base_url ++ {:02}-padded data_group ++ "/" ++ file_name`; the padded
data group has exactly two digits whenever the group is below 100. -/
theorem chunk_filename_and_uri (guid : FGuid) (size : Nat)
    (hash sha base : String) (g : Nat) (hg : g ≤ 255) :
    (FileChunk.new guid size hash sha g base).file_name
      = hash ++ "_" ++ guid.toStr ++ ".chunk"
    ∧ (FileChunk.new guid size hash sha g base).uri
      = base ++ padDec2 g ++ "/" ++ (hash ++ "_" ++ guid.toStr ++ ".chunk")
    ∧ (g ≤ 99 → (padDec2 g).length = 2) := by
  refine ⟨rfl, rfl, fun h99 => ?_⟩
  interval_cases g <;> rfl

/-- Witness for C6 at the spec's example: base "https://h/", data group 7,
rolling hash "0123456789ABCDEF"; the URI is
"https://h/07/0123456789ABCDEF_00112233445566778899AABBCCDDEEFF.chunk". -/
theorem chunk_filename_and_uri_witness :
    (7 : Nat) ≤ 255
    ∧ ((FileChunk.new ⟨0x00112233, 0x44556677, 0x8899AABB, 0xCCDDEEFF⟩ 11
          "0123456789ABCDEF" "" 7 "https://h/").file_name
        = "0123456789ABCDEF" ++ "_"
          ++ (⟨0x00112233, 0x44556677, 0x8899AABB, 0xCCDDEEFF⟩ : FGuid).toStr
          ++ ".chunk"
      ∧ (FileChunk.new ⟨0x00112233, 0x44556677, 0x8899AABB, 0xCCDDEEFF⟩ 11
          "0123456789ABCDEF" "" 7 "https://h/").uri
        = "https://h/" ++ padDec2 7 ++ "/"
          ++ ("0123456789ABCDEF" ++ "_"
            ++ (⟨0x00112233, 0x44556677, 0x8899AABB, 0xCCDDEEFF⟩ : FGuid).toStr
            ++ ".chunk")
      ∧ ((7 : Nat) ≤ 99 → (padDec2 7).length = 2))
    ∧ (FileChunk.new ⟨0x00112233, 0x44556677, 0x8899AABB, 0xCCDDEEFF⟩ 11
        "0123456789ABCDEF" "" 7 "https://h/").uri
      = "https://h/07/0123456789ABCDEF_00112233445566778899AABBCCDDEEFF.chunk" :=
  ⟨by decide,
   chunk_filename_and_uri ⟨0x00112233, 0x44556677, 0x8899AABB, 0xCCDDEEFF⟩ 11
     "0123456789ABCDEF" "" "https://h/" 7 (by decide),
   by decide⟩

/-- Reduction of a monadic bind on a successful `P` computation. -/
@[simp] theorem P_bind_ok (a : α) (f : α → P β) :
    (Except.ok a : P α) >>= f = f a := rfl

/-- Reduction of a monadic bind on a failed `P` computation. -/
@[simp] theorem P_bind_err (e : Fail) (f : α → P β) :
    (Except.error e : P α) >>= f = Except.error e := rfl

/-- Reduction of `Except.map` on a successful `P` computation. -/
@[simp] theorem P_map_ok (f : α → β) (a : α) :
    Except.map f (Except.ok a : P α) = Except.ok (f a) := rfl

/-- Reduction of `Except.map` on a failed `P` computation. -/
@[simp] theorem P_map_err (f : α → β) (e : Fail) :
    Except.map f (Except.error e : P α) = Except.error e := rfl

/-- A `getBytesP` read succeeds when the range is inside the buffer. -/
theorem getBytesP_ok_of_le (d : List Nat) (p n : Nat) (h : p + n ≤ d.length) :
    getBytesP d p n = .ok ((d.drop p).take n, p + n) := by
  simp [getBytesP, readBytes, h]

/-- A `get_i32_le` read succeeds when the range is inside the buffer. -/
theorem getI32le_ok_of_le (d : List Nat) (p : Nat) (h : p + 4 ≤ d.length) :
    getI32le d p = .ok (toI32 (leVal ((d.drop p).take 4)), p + 4) := by
  simp [getI32le, getBytesP_ok_of_le d p 4 h]

/-- Claim C8: for every manifest buffer whose magic matches, whose
`header_size` is non-negative and whose storage-flag byte (offset 36)
equals `0x02`, `Manifest::new` fails with the encryption rejection and no
`Manifest` value is produced. -/
theorem encrypted_storage_flag_rejected
    (inflate : List Nat → Option (List Nat)) (data : List Nat)
    (options : ManifestOptions) (hs v : Int)
    (hlen : 41 ≤ data.length)
    (hmagic : getU32le data 0 = .ok (0x44BEC00C, 4))
    (hhs : getI32le data 4 = .ok (hs, 8))
    (hflag : getU8 data 36 = .ok (2, 37))
    (hver : getI32le data 37 = .ok (v, 41))
    (hpos : 0 ≤ hs) :
    Manifest.new inflate data options
      = .error (.panicked "Encrypted manifests are not supported.") := by
  have h8 := getI32le_ok_of_le data 8 (by omega)
  have h12 := getI32le_ok_of_le data 12 (by omega)
  simp [Manifest.new, outerPayload, Except.bind, hmagic, hhs, h8, h12, hflag,
    hver, usizeOf, hpos]

/-- Witness for C8: a concrete 41-byte header with storage flag `0x02`. -/
theorem encrypted_storage_flag_rejected_witness :
    41 ≤ (([0x0C, 0xC0, 0xBE, 0x44] ++ i32b 41 ++ i32b 0 ++ i32b 0
        ++ List.replicate 20 0 ++ [2] ++ i32b 0 : List Nat)).length
    ∧ Manifest.new noInflate
        ([0x0C, 0xC0, 0xBE, 0x44] ++ i32b 41 ++ i32b 0 ++ i32b 0
          ++ List.replicate 20 0 ++ [2] ++ i32b 0) optsNone
      = .error (.panicked "Encrypted manifests are not supported.") :=
  ⟨by decide,
   encrypted_storage_flag_rejected noInflate _ optsNone 41 0 (by decide)
     (by decide) (by decide) (by decide) (by decide) (by decide)⟩

/-- A hex digit of a value below 16 is one of "0123456789ABCDEF". -/
theorem hexDigit_mem (n : Nat) (h : n < 16) :
    hexDigit n ∈ ("0123456789ABCDEF").toList := by
  interval_cases n <;> decide

/-- Claim C5, amended: the chunk-table SHA strings (`hex::encode_upper` of
the 20-byte digest) have length 40 and consist of uppercase hex digits; the
per-file content-hash strings are the Rust `{:X?}` debug rendering of the
digest, which starts with a bracket and is not an uppercase-hex string. -/
theorem sha_string_rendering (d : List Nat) (h20 : d.length = 20)
    (hb : ∀ b ∈ d, b < 256) :
    (hexEncodeUpper d).length = 40
    ∧ (∀ c ∈ (hexEncodeUpper d).toList, c ∈ ("0123456789ABCDEF").toList)
    ∧ (rustDebugHexSlice d).toList.head? = some '[' := by
  refine ⟨?_, ?_, ?_⟩
  · show ((d.map (fun b => [hexDigit (b / 16), hexDigit (b % 16)])).flatten).length = 40
    rw [List.length_flatten, List.map_map]
    have : (List.length ∘ fun b : Nat => [hexDigit (b / 16), hexDigit (b % 16)])
        = Function.const Nat 2 := rfl
    rw [this, List.map_const, List.sum_replicate, h20]
    norm_num
  · intro c hc
    have hc' : c ∈ (d.map (fun b => [hexDigit (b / 16), hexDigit (b % 16)])).flatten := hc
    rw [List.mem_flatten] at hc'
    obtain ⟨l, hl, hcl⟩ := hc'
    rw [List.mem_map] at hl
    obtain ⟨b, hbd, rfl⟩ := hl
    have hblt := hb b hbd
    rcases List.mem_cons.mp hcl with rfl | h2
    · exact hexDigit_mem _ (Nat.div_lt_of_lt_mul (by omega))
    · obtain rfl := List.mem_singleton.mp h2
      exact hexDigit_mem _ (Nat.mod_lt _ (by norm_num))
  · show ((("[" ++ String.intercalate ", "
        (d.map (fun b => String.mk (hexRepr b)))) ++ "]")).toList.head? = some '['
    rw [String.toList, String.data_append, String.data_append]
    rfl

/-- Witness for the amended C5 at the all-zero digest. -/
theorem sha_string_rendering_witness :
    (List.replicate 20 0).length = 20
    ∧ (∀ b ∈ List.replicate 20 0, b < 256)
    ∧ ((hexEncodeUpper (List.replicate 20 0)).length = 40
      ∧ (∀ c ∈ (hexEncodeUpper (List.replicate 20 0)).toList,
          c ∈ ("0123456789ABCDEF").toList)
      ∧ (rustDebugHexSlice (List.replicate 20 0)).toList.head? = some '[') :=
  ⟨by decide, by decide,
   sha_string_rendering (List.replicate 20 0) (by decide) (by decide)⟩

/-- A chunk part whose guid is missing from the chunk table makes the
download-list loop of `save` fail (at the first failing part reached). -/
theorem mkDownloads_error_of_missing (ctx : ManifestContext)
    (part : FileChunkPart)
    (hmiss : List.lookup part.guid ctx.chunks = none) :
    ∀ (parts : List FileChunkPart), part ∈ parts →
      ∀ pos, ∃ e, mkDownloads ctx parts pos = .error e := by
  intro parts
  induction parts with
  | nil => intro h; cases h
  | cons p ps ih =>
    intro hmem pos
    rcases List.mem_cons.mp hmem with rfl | hmem'
    · refine ⟨.panicked "called Option::unwrap on a None value", ?_⟩
      simp [mkDownloads, ChunkDownload.new, hmiss]
    · match hdl : ChunkDownload.new ctx p pos with
      | .error e => exact ⟨e, by simp [mkDownloads, hdl]⟩
      | .ok dl =>
        obtain ⟨e, he⟩ := ih hmem' (pos + dl.size)
        exact ⟨e, by simp [mkDownloads, hdl, he]⟩

/-- Claim C3, amended: decoding does not check chunk-part guids against the
chunk table (see the counterexample); instead, a file part whose guid is
absent makes `ChunkDownload::new` panic on its `unwrap`, so `save` fails
when the file is assembled. -/
theorem missing_chunk_guid_fails_at_download (fm : FileManifest)
    (part : FileChunkPart) (pos : Nat)
    (fetchDecode : ChunkDownload → P (List Nat))
    (hmem : part ∈ fm.chunk_parts)
    (hmiss : List.lookup part.guid fm.context.chunks = none) :
    ChunkDownload.new fm.context part pos
      = .error (.panicked "called Option::unwrap on a None value")
    ∧ ∃ e, fm.save fetchDecode = .error e := by
  refine ⟨by simp [ChunkDownload.new, hmiss], ?_⟩
  obtain ⟨e, he⟩ :=
    mkDownloads_error_of_missing fm.context part hmiss fm.chunk_parts hmem 0
  exact ⟨e, by simp [FileManifest.save, he]⟩

/-- Witness for the amended C3 on the decoded file of `cBytes`. -/
theorem missing_chunk_guid_fails_at_download_witness :
    (⟨⟨1, 2, 3, 4⟩, 0, 5⟩ : FileChunkPart) ∈ fm0.chunk_parts
    ∧ List.lookup (⟨⟨1, 2, 3, 4⟩, 0, 5⟩ : FileChunkPart).guid fm0.context.chunks
      = none
    ∧ (ChunkDownload.new fm0.context ⟨⟨1, 2, 3, 4⟩, 0, 5⟩ 0
        = .error (.panicked "called Option::unwrap on a None value")
      ∧ ∃ e, fm0.save (fun _ => .ok []) = .error e) :=
  ⟨by decide, by decide,
   missing_chunk_guid_fails_at_download fm0 ⟨⟨1, 2, 3, 4⟩, 0, 5⟩ 0
     (fun _ => .ok []) (by decide) (by decide)⟩

/-- Overwriting a range inside the buffer preserves its length. -/
theorem writeAt_length (buf : List Nat) (pos : Nat) (data : List Nat)
    (h : pos + data.length ≤ buf.length) :
    (writeAt buf pos data).length = buf.length := by
  simp [writeAt, List.length_append, List.length_take, List.length_drop]
  omega

/-- A `filterMap` whose function always produces `some` is a `map`. -/
theorem filterMap_some_eq_map (f : α → β) (l : List α) :
    l.filterMap (fun a => some (f a)) = l.map f := by
  induction l with
  | nil => rfl
  | cons a l ih => simp [List.filterMap_cons, ih]

/-- Under `GoodPart`, the download-list loop of `save` succeeds and produces
exactly the downloads with running-sum positions. -/
theorem mkDownloads_eq (ctx : ManifestContext) (bodyOf : String → List Nat) :
    ∀ (parts : List FileChunkPart) (pos : Nat),
      (∀ p ∈ parts, GoodPart ctx bodyOf p) →
      mkDownloads ctx parts pos = .ok (dlsOf ctx parts pos) := by
  intro parts
  induction parts with
  | nil => intro pos _; rfl
  | cons p ps ih =>
    intro pos h
    obtain ⟨hoff, hsz, ch, hch, _⟩ := h p (List.mem_cons_self p ps)
    have hnew : ChunkDownload.new ctx p pos = .ok (dlOf ctx p pos) := by
      simp [ChunkDownload.new, dlOf, hch, hoff, hsz]
    have hsize : (dlOf ctx p pos).size = p.size.toNat := by
      simp [dlOf, hch]
    have hrest := ih (pos + p.size.toNat)
      (fun q hq => h q (List.mem_cons_of_mem _ hq))
    simp [mkDownloads, hnew, hsize, hrest, dlsOf]

/-- Under `GoodPart`, download sizes are the clamped part sizes. -/
theorem dlsOf_sizes (ctx : ManifestContext) (bodyOf : String → List Nat) :
    ∀ (parts : List FileChunkPart) (pos : Nat),
      (∀ p ∈ parts, GoodPart ctx bodyOf p) →
      (dlsOf ctx parts pos).map (fun dl => dl.size)
        = parts.map (fun p => p.size.toNat) := by
  intro parts
  induction parts with
  | nil => intro pos _; rfl
  | cons p ps ih =>
    intro pos h
    obtain ⟨_, _, ch, hch, _⟩ := h p (List.mem_cons_self p ps)
    simp [dlsOf, dlOf, hch,
      ih (pos + p.size.toNat) (fun q hq => h q (List.mem_cons_of_mem _ hq))]

/-- Under `GoodPart`, a part's slice has exactly the part's clamped size. -/
theorem partSlice_length (ctx : ManifestContext) (bodyOf : String → List Nat)
    (p : FileChunkPart) (hp : GoodPart ctx bodyOf p) :
    (partSlice ctx bodyOf p).length = p.size.toNat := by
  obtain ⟨_, _, ch, hch, hlen⟩ := hp
  simp [partSlice, hch, List.length_take, List.length_drop]
  omega

/-- The receive loop of `save`, fed the downloads in dispatch order with
their decoded bodies, writes each part's slice at its running-sum position:
the buffer region `[pos, pos + Σ sizes)` becomes the concatenation of the
slices and the rest of the buffer is untouched. -/
theorem saveFold_eq (ctx : ManifestContext) (bodyOf : String → List Nat) :
    ∀ (parts : List FileChunkPart) (pos : Nat) (buf : List Nat),
      (∀ p ∈ parts, GoodPart ctx bodyOf p) →
      buf.length = pos + (parts.map (fun p => p.size.toNat)).sum →
      ((dlsOf ctx parts pos).map (fun dl => (dl, bodyOf dl.uri))).foldlM
          (fun b x => recvWrite b x.1 x.2) buf
        = .ok (buf.take pos ++ (parts.map (partSlice ctx bodyOf)).flatten
            ++ buf.drop (pos + (parts.map (fun p => p.size.toNat)).sum)) := by
  intro parts
  induction parts with
  | nil =>
    intro pos buf _ hbuf
    simp [dlsOf, List.take_append_drop]
    rfl
  | cons p ps ih =>
    intro pos buf h hbuf
    obtain ⟨hoff, hsz, ch, hch, hlen⟩ := h p (List.mem_cons_self p ps)
    have hbuf0 : buf.length
        = pos + p.size.toNat + (ps.map (fun q => q.size.toNat)).sum := by
      simp [List.map_cons, List.sum_cons] at hbuf
      omega
    have hcond2 : pos + p.size.toNat ≤ buf.length := by omega
    have hdl : dlOf ctx p pos
        = ⟨ch.uri, p.offset.toNat, p.size.toNat, ch.file_name, pos⟩ := by
      simp [dlOf, hch]
    have hpiece : (((bodyOf ch.uri).drop p.offset.toNat).take p.size.toNat).length
        = p.size.toNat := by
      simp [List.length_take, List.length_drop]
      omega
    have hslice : sliceIx (bodyOf ch.uri) p.offset.toNat
          (p.offset.toNat + p.size.toNat)
        = .ok (((bodyOf ch.uri).drop p.offset.toNat).take p.size.toNat) := by
      have hcond : p.offset.toNat ≤ p.offset.toNat + p.size.toNat
          ∧ p.offset.toNat + p.size.toNat ≤ (bodyOf ch.uri).length :=
        ⟨Nat.le_add_right _ _, hlen⟩
      simp [sliceIx, hcond]
    have hstep : recvWrite buf
        (⟨ch.uri, p.offset.toNat, p.size.toNat, ch.file_name, pos⟩ : ChunkDownload)
        (bodyOf ch.uri)
        = .ok (writeAt buf pos
            (((bodyOf ch.uri).drop p.offset.toNat).take p.size.toNat)) := by
      unfold recvWrite
      simp [hslice, hcond2]
    have hbuf' : (writeAt buf pos
          (((bodyOf ch.uri).drop p.offset.toNat).take p.size.toNat)).length
        = (pos + p.size.toNat) + (ps.map (fun q => q.size.toNat)).sum := by
      rw [writeAt_length buf pos _ (by rw [hpiece]; omega)]
      omega
    have hrest := ih (pos + p.size.toNat)
      (writeAt buf pos (((bodyOf ch.uri).drop p.offset.toNat).take p.size.toNat))
      (fun q hq => h q (List.mem_cons_of_mem _ hq)) hbuf'
    have htakelen : (buf.take pos).length = pos := by
      simp [List.length_take]
      omega
    have hlen2 : (buf.take pos
          ++ ((bodyOf ch.uri).drop p.offset.toNat).take p.size.toNat).length
        = pos + p.size.toNat := by
      simp [List.length_append, htakelen, hpiece]
    have htake : (writeAt buf pos
          (((bodyOf ch.uri).drop p.offset.toNat).take p.size.toNat)).take
            (pos + p.size.toNat)
        = buf.take pos ++ ((bodyOf ch.uri).drop p.offset.toNat).take p.size.toNat := by
      rw [writeAt, hpiece,
        show pos + p.size.toNat
            = (buf.take pos
              ++ ((bodyOf ch.uri).drop p.offset.toNat).take p.size.toNat).length
          from hlen2.symm]
      exact List.take_left _ _
    have hdrop : ∀ k, (writeAt buf pos
          (((bodyOf ch.uri).drop p.offset.toNat).take p.size.toNat)).drop
            (pos + p.size.toNat + k)
        = buf.drop (pos + p.size.toNat + k) := by
      intro k
      have hda := @List.drop_append Nat
        (buf.take pos ++ ((bodyOf ch.uri).drop p.offset.toNat).take p.size.toNat)
        (buf.drop (pos + p.size.toNat)) k
      rw [hlen2, List.drop_drop] at hda
      calc (writeAt buf pos
            (((bodyOf ch.uri).drop p.offset.toNat).take p.size.toNat)).drop
              (pos + p.size.toNat + k)
          = ((buf.take pos ++ ((bodyOf ch.uri).drop p.offset.toNat).take p.size.toNat)
              ++ buf.drop (pos + p.size.toNat)).drop (pos + p.size.toNat + k) := by
            rw [writeAt, hpiece, List.append_assoc]
        _ = buf.drop (pos + p.size.toNat + k) := hda
    have hps : partSlice ctx bodyOf p
        = ((bodyOf ch.uri).drop p.offset.toNat).take p.size.toNat := by
      simp [partSlice, hch]
    calc ((dlsOf ctx (p :: ps) pos).map (fun dl => (dl, bodyOf dl.uri))).foldlM
          (fun b x => recvWrite b x.1 x.2) buf
        = ((dlsOf ctx ps (pos + p.size.toNat)).map
            (fun dl => (dl, bodyOf dl.uri))).foldlM
            (fun b x => recvWrite b x.1 x.2)
            (writeAt buf pos
              (((bodyOf ch.uri).drop p.offset.toNat).take p.size.toNat)) := by
          simp only [dlsOf, List.map_cons, List.foldlM_cons, hdl]
          rw [hstep]
          rfl
      _ = .ok ((writeAt buf pos
              (((bodyOf ch.uri).drop p.offset.toNat).take p.size.toNat)).take
                (pos + p.size.toNat)
            ++ (ps.map (partSlice ctx bodyOf)).flatten
            ++ (writeAt buf pos
              (((bodyOf ch.uri).drop p.offset.toNat).take p.size.toNat)).drop
                ((pos + p.size.toNat) + (ps.map (fun q => q.size.toNat)).sum)) := hrest
      _ = .ok (buf.take pos
            ++ ((p :: ps).map (partSlice ctx bodyOf)).flatten
            ++ buf.drop (pos + ((p :: ps).map (fun q => q.size.toNat)).sum)) := by
          rw [htake, hdrop ((ps.map (fun q => q.size.toNat)).sum), List.map_cons,
            List.flatten_cons, hps, List.map_cons, List.sum_cons,
            show pos + (p.size.toNat + (ps.map (fun q => q.size.toNat)).sum)
                = pos + p.size.toNat + (ps.map (fun q => q.size.toNat)).sum
              from (Nat.add_assoc pos p.size.toNat _).symm]
          simp [List.append_assoc]

/-- Claim C2: for a file whose parts all resolve and are in range,
`FileManifest::save` returns exactly the in-order concatenation of the
byte ranges `[offset, offset+size)` of each part's decoded chunk body, and
its length is the sum of the part sizes. -/
theorem save_returns_part_concatenation (fm : FileManifest)
    (bodyOf : String → List Nat)
    (h : ∀ p ∈ fm.chunk_parts, GoodPart fm.context bodyOf p) :
    fm.save (fun dl => .ok (bodyOf dl.uri))
      = .ok ((fm.chunk_parts.map (partSlice fm.context bodyOf)).flatten)
    ∧ ((fm.chunk_parts.map (partSlice fm.context bodyOf)).flatten).length
      = (fm.chunk_parts.map (fun p => p.size.toNat)).sum := by
  have hmk := mkDownloads_eq fm.context bodyOf fm.chunk_parts 0 h
  have hsizes := dlsOf_sizes fm.context bodyOf fm.chunk_parts 0 h
  constructor
  · have hfold := saveFold_eq fm.context bodyOf fm.chunk_parts 0
      (List.replicate ((fm.chunk_parts.map (fun p => p.size.toNat)).sum) 0) h
      (by simp [List.length_replicate])
    calc fm.save (fun dl => .ok (bodyOf dl.uri))
        = ((dlsOf fm.context fm.chunk_parts 0).map
            (fun dl => (dl, bodyOf dl.uri))).foldlM
              (fun b x => recvWrite b x.1 x.2)
              (List.replicate ((fm.chunk_parts.map (fun p => p.size.toNat)).sum) 0) := by
          simp only [FileManifest.save, hmk, P_bind_ok]
          rw [filterMap_some_eq_map (fun dl => (dl, bodyOf dl.uri))
            (dlsOf fm.context fm.chunk_parts 0), hsizes]
      _ = .ok ((List.replicate ((fm.chunk_parts.map (fun p => p.size.toNat)).sum) 0).take 0
            ++ (fm.chunk_parts.map (partSlice fm.context bodyOf)).flatten
            ++ (List.replicate ((fm.chunk_parts.map (fun p => p.size.toNat)).sum) 0).drop
                (0 + (fm.chunk_parts.map (fun p => p.size.toNat)).sum)) := hfold
      _ = .ok ((fm.chunk_parts.map (partSlice fm.context bodyOf)).flatten) := by
          simp
  · rw [List.length_flatten, List.map_map]
    exact congrArg List.sum
      (List.map_congr_left fun p hp => partSlice_length _ _ p (h p hp))

/-- Witness for C2 at the spec's multi-part scenario: parts `(G1, 4, 3)`
then `(G2, 0, 2)` over bodies "xxxxABCdd" and "YZ" assemble to "ABCYZ". -/
theorem save_returns_part_concatenation_witness :
    (∀ p ∈ fmW.chunk_parts, GoodPart fmW.context bodyOfW p)
    ∧ (fmW.save (fun dl => .ok (bodyOfW dl.uri))
        = .ok ((fmW.chunk_parts.map (partSlice fmW.context bodyOfW)).flatten)
      ∧ ((fmW.chunk_parts.map (partSlice fmW.context bodyOfW)).flatten).length
        = (fmW.chunk_parts.map (fun p => p.size.toNat)).sum)
    ∧ (fmW.chunk_parts.map (partSlice fmW.context bodyOfW)).flatten
      = [65, 66, 67, 89, 90] :=
  have hgood : ∀ p ∈ fmW.chunk_parts, GoodPart fmW.context bodyOfW p := by
    intro p hp
    rcases List.mem_cons.mp hp with rfl | hp2
    · exact ⟨by decide, by decide, ch1W, by decide, by decide⟩
    · obtain rfl := List.mem_singleton.mp hp2
      exact ⟨by decide, by decide, ch2W, by decide, by decide⟩
  ⟨hgood, save_returns_part_concatenation fmW bodyOfW hgood, by decide⟩

/-- A read that lies inside the left part of an appended buffer. -/
theorem readBytes_append_left (a b : List Nat) (p n : Nat)
    (h : p + n ≤ a.length) :
    readBytes (a ++ b) p n = readBytes a p n := by
  unfold readBytes
  rw [if_pos (by simp [List.length_append]; omega), if_pos h,
    List.drop_append_of_le_length (by omega),
    List.take_append_of_le_length (by simp [List.length_drop]; omega)]

/-- A read that lies inside the right part of an appended buffer. -/
theorem readBytes_append_right (a b : List Nat) (p n : Nat)
    (h : a.length ≤ p) :
    readBytes (a ++ b) p n = readBytes b (p - a.length) n := by
  have hd := @List.drop_append Nat a b (p - a.length)
  rw [show a.length + (p - a.length) = p from by omega] at hd
  unfold readBytes
  rw [hd]
  by_cases hc : p - a.length + n ≤ b.length
  · rw [if_pos (by simp [List.length_append]; omega), if_pos hc]
  · rw [if_neg (by simp [List.length_append]; omega), if_neg hc]

set_option maxHeartbeats 2000000

/-- Claim C7: before reading each next section the decoder seeks to
`section_start + data_size` as declared at the section head, so when a
section declares more bytes than the decoder consumes (here 5, 3 and 7
excess junk bytes after sections 1, 2 and 3), the following section is
still read at the declared offset: decoding succeeds and is independent of
the junk bytes' values. -/
theorem section_seek_skips_excess_bytes (padA padB padC : List Nat)
    (hA : padA.length = 5) (hB : padB.length = 3) (hC : padC.length = 7) :
    parseInner optsNone
      (s1pad ++ (padA ++ (s2pad ++ (padB ++ (s3pad ++ (padC ++ s4pad))))))
      = .ok M7 := by
  have hs1 : s1pad.length = 46 := by decide
  have hs2 : s2pad.length = 9 := by decide
  have hs3 : s3pad.length = 9 := by decide
  have hs4 : s4pad.length = 5 := by decide
  have h1 : readBuildMeta
      (s1pad ++ (padA ++ (s2pad ++ (padB ++ (s3pad ++ (padC ++ s4pad))))))
      = .ok ⟨51, 0, "", "", "", "", [], "", "", "", ""⟩ := by
    have r0 : readBytes s1pad 0 4 = some [51, 0, 0, 0] := by decide
    have r4 : readBytes s1pad 4 1 = some [0] := by decide
    have r5 : readBytes s1pad 5 4 = some [0, 0, 0, 0] := by decide
    have r9 : readBytes s1pad 9 1 = some [0] := by decide
    have r10 : readBytes s1pad 10 4 = some [0, 0, 0, 0] := by decide
    have r14 : readBytes s1pad 14 4 = some [0, 0, 0, 0] := by decide
    have r18 : readBytes s1pad 18 4 = some [0, 0, 0, 0] := by decide
    have r22 : readBytes s1pad 22 4 = some [0, 0, 0, 0] := by decide
    have r26 : readBytes s1pad 26 4 = some [0, 0, 0, 0] := by decide
    have r30 : readBytes s1pad 30 4 = some [0, 0, 0, 0] := by decide
    have r34 : readBytes s1pad 34 4 = some [0, 0, 0, 0] := by decide
    have r38 : readBytes s1pad 38 4 = some [0, 0, 0, 0] := by decide
    have r42 : readBytes s1pad 42 4 = some [0, 0, 0, 0] := by decide
    simp [readBuildMeta, read_fstring, read_tarray, read_sized_tarray,
      getI32le, getI32be, getU8, getBytesP, usizeOf, leVal, beVal, toI32,
      unwrapP, readBytes_append_left, hs1,
      r0, r4, r5, r9, r10, r14, r18, r22, r26, r30, r34, r38, r42]
  have h2 : readChunkTables
      (s1pad ++ (padA ++ (s2pad ++ (padB ++ (s3pad ++ (padC ++ s4pad)))))) 51
      = .ok ⟨12, [], [], [], []⟩ := by
    have q0 : readBytes s2pad 0 4 = some [12, 0, 0, 0] := by decide
    have q4 : readBytes s2pad 4 1 = some [0] := by decide
    have q5 : readBytes s2pad 5 4 = some [0, 0, 0, 0] := by decide
    simp [readChunkTables, read_sized_tarray, readShaColumn, readByteColumn,
      getI32le, getU8, getU64le, getBytesP, usizeOf, seekCur, wrapI32,
      leVal, toI32, insertAll,
      readBytes_append_left, readBytes_append_right, hs1, hs2, hA,
      q0, q4, q5]
  have h3 : readFileTable
      (s1pad ++ (padA ++ (s2pad ++ (padB ++ (s3pad ++ (padC ++ s4pad)))))) 63
      = .ok ⟨16, []⟩ := by
    have t0 : readBytes s3pad 0 4 = some [16, 0, 0, 0] := by decide
    have t4 : readBytes s3pad 4 1 = some [0] := by decide
    have t5 : readBytes s3pad 5 4 = some [0, 0, 0, 0] := by decide
    simp [readFileTable, read_sized_tarray, read_tarray, readShaColumn,
      skipSymlinks, getI32le, getU8, getBytesP, usizeOf, seekCur, wrapI32,
      leVal, toI32, read_fstring, unwrapP,
      readBytes_append_left, readBytes_append_right, hs1, hs2, hs3, hA, hB,
      t0, t4, t5]
  have h4 : readCustomFields
      (s1pad ++ (padA ++ (s2pad ++ (padB ++ (s3pad ++ (padC ++ s4pad)))))) 79
      = .ok [] := by
    have u0 : readBytes s4pad 0 4 = some [5, 0, 0, 0] := by decide
    have u4 : readBytes s4pad 4 1 = some [0] := by decide
    simp [readCustomFields, getI32le, getU8, getBytesP, usizeOf, leVal, toI32,
      readBytes_append_left, readBytes_append_right, hs1, hs2, hs3, hs4,
      hA, hB, hC, u0, u4]
  simp [parseInner, h1, h2, h3, h4, usizeOf, toI32, buildChunks, M7, optsNone]

/-- Witness for C7 with concrete junk bytes 170/171/172. -/
theorem section_seek_skips_excess_bytes_witness :
    (List.replicate 5 170).length = 5
    ∧ (List.replicate 3 171).length = 3
    ∧ (List.replicate 7 172).length = 7
    ∧ parseInner optsNone
        (s1pad ++ (List.replicate 5 170 ++ (s2pad ++ (List.replicate 3 171
          ++ (s3pad ++ (List.replicate 7 172 ++ s4pad)))))) = .ok M7 :=
  ⟨by decide, by decide, by decide,
   section_seek_skips_excess_bytes (List.replicate 5 170)
     (List.replicate 3 171) (List.replicate 7 172)
     (by decide) (by decide) (by decide)⟩

end EpicManifest
